import Mathlib

/-!
Verification of the real-time sensor-data processing pipeline of the
i-lift artificial-lift management dashboard.

The repository ships the design documentation of the pipeline
(backend/README_PROCESSING.md, backend/README_INGESTION.md), the storage
schema (backend/database/init.sql) and the frontend, but not the Python
implementation of the stream processor, feature engineer, batch writer and
orchestrator.  The pipeline definitions below are therefore modelled from
the specification; the storage-schema definitions are translated from
backend/database/init.sql, which is present in the sources.

Numeric modelling: sensor values are embedded as rationals, so the
incremental-aggregate identities are exact (the specification asks for
equality within floating-point tolerance; exact rational equality is the
idealised form of that statement).  A z-score is determined by its square
together with the sign of the deviation, and the anomaly comparison with
a nonnegative threshold depends only on the square, so the engine stores
the square of the z-score and of the standard deviation; theorems relate
these to the real-valued quantities through Real.sqrt.
-/

namespace ILift

/-- Modelled from the spec: a raw sensor value as delivered by the source
adapter.  The ingestion layer (not shipped under src) may hand the engine a
reading with the field missing or with a non-finite float; both are
validation failures, so the embedding distinguishes the three cases. -/
inductive RawVal where
  | missing : RawVal
  | nonFinite : RawVal
  | fin : ℚ → RawVal
  deriving DecidableEq, Repr

/-- Modelled from the spec: one ingested observation (§3 Reading).  The
`unit` and `quality` fields play no role in the verified properties and
are omitted.  `timestamp` is an epoch-second instant; it is optional here
because a malformed reading may lack it. -/
structure Reading where
  well_id : String
  sensor_type : String
  value : RawVal
  timestamp : Option Int
  deriving DecidableEq, Repr

/-- Modelled from the spec: one entry of a per-key window — the value of a
reading together with its timestamp (needed for rate-of-change). -/
structure Entry where
  val : ℚ
  ts : Int
  deriving DecidableEq, Repr

/-- Modelled from the spec: per-key window state (§3 WindowState) — the
bounded sequence of the last `window_size` readings, oldest first, plus
the incrementally maintained running sum and sum of squares. -/
structure WindowState where
  entries : List Entry
  runningSum : ℚ
  runningSumSq : ℚ
  deriving DecidableEq, Repr

def emptyWindow : WindowState := ⟨[], 0, 0⟩

def WindowState.count (ws : WindowState) : ℕ := ws.entries.length

def WindowState.vals (ws : WindowState) : List ℚ := ws.entries.map (·.val)

/-- Running mean, derived from the running sum (division by zero in ℚ is 0,
so the empty window gets mean 0; the engine never reads it there). -/
def WindowState.mean (ws : WindowState) : ℚ := ws.runningSum / ws.count

/-- Running population variance, derived from the running sum of squares. -/
def WindowState.variance (ws : WindowState) : ℚ :=
  ws.runningSumSq / ws.count - ws.mean ^ 2

/-- Modelled from the spec: insert a reading into the window (§4.1): append
it as newest entry, and if the window now exceeds `window_size` evict the
oldest entry, subtracting its contribution from the running aggregates. -/
def insertEntry (W : ℕ) (ws : WindowState) (e : Entry) : WindowState :=
  if W < (ws.entries ++ [e]).length then
    ⟨(ws.entries ++ [e]).tail,
     ws.runningSum + e.val - ((ws.entries ++ [e]).headD e).val,
     ws.runningSumSq + e.val ^ 2 - ((ws.entries ++ [e]).headD e).val ^ 2⟩
  else
    ⟨ws.entries ++ [e], ws.runningSum + e.val, ws.runningSumSq + e.val ^ 2⟩

/-- Feeding a whole sequence of readings of one key into a fresh window. -/
def insertAllW (W : ℕ) (es : List Entry) : WindowState :=
  es.foldl (insertEntry W) emptyWindow

/-- Sum of the values of a list of window entries. -/
def sumVals (l : List Entry) : ℚ := (l.map (·.val)).sum

/-- Sum of the squared values of a list of window entries. -/
def sumSqVals (l : List Entry) : ℚ := (l.map (fun e => e.val ^ 2)).sum

/-- From-scratch mean of a list of values. -/
def listMean (l : List ℚ) : ℚ := l.sum / l.length

/-- From-scratch population variance of a list of values. -/
def listVar (l : List ℚ) : ℚ :=
  (l.map (fun x => (x - listMean l) ^ 2)).sum / l.length

/-- From-scratch sum of squares of a list of values. -/
def listSumSq (l : List ℚ) : ℚ := (l.map (fun x => x ^ 2)).sum

lemma sumVals_append (l : List Entry) (e : Entry) :
    sumVals (l ++ [e]) = sumVals l + e.val := by
  simp [sumVals]

lemma sumSqVals_append (l : List Entry) (e : Entry) :
    sumSqVals (l ++ [e]) = sumSqVals l + e.val ^ 2 := by
  simp [sumSqVals]

/-- The running-aggregate invariant of a window state. -/
def aggInv (ws : WindowState) : Prop :=
  ws.runningSum = sumVals ws.entries ∧ ws.runningSumSq = sumSqVals ws.entries

lemma aggInv_empty : aggInv emptyWindow := by
  constructor <;> simp [emptyWindow, sumVals, sumSqVals]

lemma aggInv_insert (W : ℕ) (ws : WindowState) (e : Entry)
    (h : aggInv ws) : aggInv (insertEntry W ws e) := by
  obtain ⟨h1, h2⟩ := h
  unfold insertEntry
  by_cases hW : W < (ws.entries ++ [e]).length
  · simp only [if_pos hW]
    rcases hes : ws.entries with _ | ⟨a, rest⟩
    · rw [hes] at h1 h2
      constructor <;> simp_all [aggInv, sumVals, sumSqVals]
    · rw [hes] at h1 h2
      constructor
      · simp only [aggInv, List.cons_append, List.tail_cons, List.headD_cons]
        rw [h1, sumVals_append]
        simp [sumVals]
        ring
      · simp only [aggInv, List.cons_append, List.tail_cons, List.headD_cons]
        rw [h2, sumSqVals_append]
        simp [sumSqVals]
        ring
  · simp only [if_neg hW]
    constructor
    · simp only [aggInv]
      rw [sumVals_append, h1]
    · simp only [aggInv]
      rw [sumSqVals_append, h2]

lemma aggInv_insertAllW (W : ℕ) (es : List Entry) : aggInv (insertAllW W es) := by
  unfold insertAllW
  induction es using List.reverseRecOn with
  | nil => exact aggInv_empty
  | append_singleton l a ih =>
      rw [List.foldl_append]
      exact aggInv_insert W _ a ih

lemma insertEntry_entries_of_lt (W : ℕ) (ws : WindowState) (e : Entry)
    (h : ws.entries.length < W) :
    (insertEntry W ws e).entries = ws.entries ++ [e] := by
  unfold insertEntry
  split
  · rename_i hlt
    exfalso
    simp only [List.length_append, List.length_cons, List.length_nil] at hlt
    omega
  · rfl

lemma insertEntry_entries_of_ge (W : ℕ) (ws : WindowState) (e : Entry)
    (h : W ≤ ws.entries.length) :
    (insertEntry W ws e).entries = (ws.entries ++ [e]).tail := by
  unfold insertEntry
  split
  · rfl
  · rename_i hge
    exfalso
    simp only [List.length_append, List.length_cons, List.length_nil] at hge
    omega

/-- The window holds exactly the most-recent `min N W` readings: after
feeding `es`, its entries are the length-`min (es.length) W` suffix. -/
lemma insertAllW_entries (W : ℕ) (hW : 0 < W) (es : List Entry) :
    (insertAllW W es).entries = es.drop (es.length - W) := by
  unfold insertAllW
  induction es using List.reverseRecOn with
  | nil => simp [emptyWindow]
  | append_singleton l a ih =>
      rw [List.foldl_append]
      simp only [List.foldl_cons, List.foldl_nil]
      by_cases hl : l.length < W
      · have hlen : (l.foldl (insertEntry W) emptyWindow).entries.length < W := by
          rw [ih, List.length_drop]
          omega
        rw [insertEntry_entries_of_lt W _ a hlen, ih]
        have h1 : l.length - W = 0 := by omega
        have h2 : (l ++ [a]).length - W = 0 := by
          simp only [List.length_append, List.length_cons, List.length_nil]
          omega
        rw [h1, h2]
        simp
      · push_neg at hl
        have hlen : (l.foldl (insertEntry W) emptyWindow).entries.length = W := by
          rw [ih, List.length_drop]
          omega
        rw [insertEntry_entries_of_ge W _ a (by rw [hlen])]
        rw [ih]
        have hdrop : (l.drop (l.length - W) ++ [a]).tail
            = l.drop (l.length - W + 1) ++ [a] := by
          rcases hd : l.drop (l.length - W) with _ | ⟨b, rest⟩
          · exfalso
            have := congrArg List.length hd
            simp [List.length_drop] at this
            omega
          · have h3 : l.drop (l.length - W + 1) = rest := by
              have h4 := congrArg List.tail hd
              rw [List.tail_drop] at h4
              simpa using h4
            rw [h3]
            simp
        rw [hdrop]
        have harith : l.length - W + 1 = (l ++ [a]).length - W := by
          simp only [List.length_append, List.length_cons, List.length_nil]
          omega
        rw [harith]
        rw [List.drop_append_of_le_length (by simp; omega)]

lemma insertAllW_count (W : ℕ) (hW : 0 < W) (es : List Entry) :
    (insertAllW W es).count = min es.length W := by
  rw [WindowState.count, insertAllW_entries W hW es, List.length_drop]
  omega

/-- Expansion of the centred sum of squares. -/
lemma sum_sub_sq (l : List ℚ) (m : ℚ) :
    (l.map (fun x => (x - m) ^ 2)).sum
      = listSumSq l - 2 * m * l.sum + l.length * m ^ 2 := by
  induction l with
  | nil => simp [listSumSq]
  | cons a t ih =>
      simp only [List.map_cons, List.sum_cons, List.length_cons, listSumSq] at *
      rw [ih]
      push_cast
      ring

/-- The from-scratch population variance equals the sum-of-squares form
maintained incrementally by the window state. -/
lemma listVar_eq_sumSq (l : List ℚ) :
    listVar l = listSumSq l / l.length - (listMean l) ^ 2 := by
  rcases l with _ | ⟨a, t⟩
  · simp [listVar, listSumSq, listMean]
  · have hn : ((a :: t).length : ℚ) ≠ 0 := by
      simp
      positivity
    unfold listVar
    rw [sum_sub_sq]
    unfold listMean
    field_simp
    ring

lemma mean_eq_of_aggInv (ws : WindowState) (h : aggInv ws) :
    ws.mean = listMean ws.vals := by
  rw [WindowState.mean, WindowState.count, h.1, listMean, WindowState.vals,
    sumVals, List.length_map]

lemma sumSqVals_eq_listSumSq (l : List Entry) :
    sumSqVals l = listSumSq (l.map (·.val)) := by
  simp only [sumSqVals, listSumSq, List.map_map]
  rfl

lemma variance_eq_of_aggInv (ws : WindowState) (h : aggInv ws) :
    ws.variance = listVar ws.vals := by
  rw [WindowState.variance, listVar_eq_sumSq, WindowState.count, h.2,
    mean_eq_of_aggInv ws h, WindowState.vals, sumSqVals_eq_listSumSq,
    List.length_map]

lemma vals_length (ws : WindowState) : ws.vals.length = ws.count := by
  simp [WindowState.vals, WindowState.count]

/-- C1: for every key and every sequence of readings processed for that key
with configured window size `W`, the window afterwards contains exactly the
`min N W` most-recent readings, and the incrementally maintained aggregates
(running mean, and standard deviation derived from the running sum of
squares, updated by subtracting an evicted reading's contribution) equal a
from-scratch recomputation over exactly those readings — exactly over ℚ,
hence within any floating-point tolerance; in particular, after inserting
`W + 1` readings the aggregates equal those computed directly over readings
2..W+1 (the tail of the input). -/
theorem C1_window_aggregates (W : ℕ) (hW : 0 < W) (es : List Entry) :
    (insertAllW W es).entries = es.drop (es.length - W) ∧
    (insertAllW W es).count = min es.length W ∧
    (insertAllW W es).runningSum = sumVals (insertAllW W es).entries ∧
    (insertAllW W es).runningSumSq = sumSqVals (insertAllW W es).entries ∧
    (insertAllW W es).mean = listMean (insertAllW W es).vals ∧
    (insertAllW W es).variance = listVar (insertAllW W es).vals ∧
    Real.sqrt ((insertAllW W es).variance : ℝ)
      = Real.sqrt ((listVar (insertAllW W es).vals : ℚ) : ℝ) ∧
    (es.length = W + 1 →
      (insertAllW W es).entries = es.tail ∧
      (insertAllW W es).mean = listMean (es.tail.map (·.val)) ∧
      (insertAllW W es).variance = listVar (es.tail.map (·.val))) := by
  have hinv := aggInv_insertAllW W es
  have hmean := mean_eq_of_aggInv _ hinv
  have hvar := variance_eq_of_aggInv _ hinv
  refine ⟨insertAllW_entries W hW es, insertAllW_count W hW es,
    hinv.1, hinv.2, hmean, hvar, by rw [hvar], ?_⟩
  intro hlen
  have htail : (insertAllW W es).entries = es.tail := by
    rw [insertAllW_entries W hW es, hlen]
    simp [List.drop_one]
  have hvals : (insertAllW W es).vals = es.tail.map (·.val) := by
    rw [WindowState.vals, htail]
  exact ⟨htail, by rw [hmean, hvals], by rw [hvar, hvals]⟩

/-- Witness for C1 at a concrete input: window size 2, three readings. -/
theorem C1_window_aggregates_witness :
    (insertAllW 2 [⟨1, 0⟩, ⟨2, 1⟩, ⟨3, 2⟩]).entries = [⟨2, 1⟩, ⟨3, 2⟩] ∧
    (insertAllW 2 [⟨1, 0⟩, ⟨2, 1⟩, ⟨3, 2⟩]).mean
      = listMean (insertAllW 2 [⟨1, 0⟩, ⟨2, 1⟩, ⟨3, 2⟩]).vals ∧
    (insertAllW 2 [⟨1, 0⟩, ⟨2, 1⟩, ⟨3, 2⟩]).variance
      = listVar (insertAllW 2 [⟨1, 0⟩, ⟨2, 1⟩, ⟨3, 2⟩]).vals := by
  have h := C1_window_aggregates 2 (by decide) [⟨1, 0⟩, ⟨2, 1⟩, ⟨3, 2⟩]
  refine ⟨?_, h.2.2.2.2.1, h.2.2.2.2.2.1⟩
  rw [h.1]
  decide

/-- Modelled from the spec: the configuration surface (§6) — `batch_size`
(default 100), `window_size` (count, default 60), `anomaly_threshold`
(default 3.0), `retry_limit`, `backoff_base`.  `flush_interval` drives the
wall-clock timer, which has no observable effect on the verified
properties, and is omitted. -/
structure Config where
  windowSize : ℕ
  anomalyThreshold : ℚ
  batchSize : ℕ
  retryLimit : ℕ
  backoffBase : ℚ
  deriving DecidableEq, Repr

/-- Median from a sorted copy of the window (§4.1). -/
def medianQ (l : List ℚ) : ℚ :=
  let s := List.insertionSort (· ≤ ·) l
  if s.length % 2 = 1 then s.getD (s.length / 2) 0
  else (s.getD (s.length / 2 - 1) 0 + s.getD (s.length / 2) 0) / 2

/-- Linear-interpolated rank percentile (§4.2). -/
def percentileQ (p : ℚ) (l : List ℚ) : ℚ :=
  let s := List.insertionSort (· ≤ ·) l
  let pos : ℚ := p * ((s.length : ℚ) - 1)
  let lo : ℕ := (Int.floor pos).toNat
  s.getD lo 0 + (pos - lo) * (s.getD (lo + 1) 0 - s.getD lo 0)

/-- First differences of a series. -/
def diffsQ (l : List ℚ) : List ℚ := List.zipWith (fun a b => b - a) l l.tail

/-- Ordinary-least-squares slope of value against index (§4.2 trend). -/
def olsSlope (l : List ℚ) : ℚ :=
  let xs : List ℚ := (List.range l.length).map (fun i => (i : ℚ))
  ((l.length : ℚ) * (List.zipWith (· * ·) xs l).sum - xs.sum * l.sum)
    / ((l.length : ℚ) * (xs.map (fun x => x ^ 2)).sum - xs.sum ^ 2)

/-- Modelled from the spec: the emitted record — the FeatureVector of §3
merged with the stream statistics of §4.1, with optional (nullable) fields
for every statistical/trend quantity.  The standard deviation and the
z-score are stored as their squares (`stdSq`, `zScoreSq`); together with
the sign of `changeFromMean` these determine the float fields of the
original, and the anomaly decision uses only the square.  Time features
(pure functions of the timestamp) are not needed by any verified property
and are omitted. -/
structure ProcessedRecord where
  value : ℚ
  ts : Int
  windowCount : ℕ
  mean : Option ℚ
  median : Option ℚ
  stdSq : Option ℚ
  minVal : Option ℚ
  maxVal : Option ℚ
  rangeVal : Option ℚ
  p25 : Option ℚ
  p75 : Option ℚ
  iqr : Option ℚ
  trend : Option ℚ
  acceleration : Option ℚ
  volatilitySq : Option ℚ
  changeFromMean : Option ℚ
  changePercent : Option ℚ
  rateOfChange : Option ℚ
  zScoreSq : Option ℚ
  isAnomaly : Bool
  deriving DecidableEq, Repr

/-- Modelled from the spec: one step of the Stream Statistics Engine plus
Feature Engineering (§4.1, §4.2) for a single key.  Point metrics
(`change_from_mean`, `change_percent`, `z_score`, `rate_of_change`, the
anomaly flag) are computed against the window as it stands before the
reading is inserted — the end-to-end scenario of §8 fixes this order by
requiring `change_percent` of the third reading to be measured against the
pre-insert mean — while the reported window statistics are computed after
insertion.  Every degenerate case yields `none` instead of an error:
empty pre-insert window, zero pre-insert mean (change percent), zero
pre-insert variance (z-score), windows shorter than 2 (statistics, trend)
or 3 (acceleration, volatility), zero elapsed time (rate of change). -/
def processValue (cfg : Config) (ws : WindowState) (v : ℚ) (ts : Int) :
    WindowState × ProcessedRecord :=
  let cfm : Option ℚ := if ws.count = 0 then none else some (v - ws.mean)
  let cp : Option ℚ :=
    if ws.count = 0 ∨ ws.mean = 0 then none
    else some ((v - ws.mean) / ws.mean * 100)
  let zsq : Option ℚ :=
    if ws.count = 0 ∨ ws.variance = 0 then none
    else some ((v - ws.mean) ^ 2 / ws.variance)
  let anom : Bool :=
    match zsq with
    | some z2 => decide (cfg.anomalyThreshold ^ 2 < z2)
    | none => false
  let roc : Option ℚ :=
    match ws.entries.getLast? with
    | none => none
    | some e => if ts = e.ts then none else some ((v - e.val) / ((ts - e.ts : ℤ) : ℚ))
  let ws2 := insertEntry cfg.windowSize ws ⟨v, ts⟩
  let l := ws2.vals
  let s := List.insertionSort (· ≤ ·) l
  (ws2,
   { value := v
     ts := ts
     windowCount := ws2.count
     mean := if ws2.count < 2 then none else some ws2.mean
     median := if ws2.count < 2 then none else some (medianQ l)
     stdSq := if ws2.count < 2 then none else some ws2.variance
     minVal := if ws2.count < 2 then none else some (s.getD 0 0)
     maxVal := if ws2.count < 2 then none else some (s.getD (s.length - 1) 0)
     rangeVal := if ws2.count < 2 then none
       else some (s.getD (s.length - 1) 0 - s.getD 0 0)
     p25 := if ws2.count < 2 then none else some (percentileQ (1 / 4) l)
     p75 := if ws2.count < 2 then none else some (percentileQ (3 / 4) l)
     iqr := if ws2.count < 2 then none
       else some (percentileQ (3 / 4) l - percentileQ (1 / 4) l)
     trend := if ws2.count < 2 then none else some (olsSlope l)
     acceleration := if ws2.count < 3 then none
       else some (listMean (diffsQ (diffsQ l)))
     volatilitySq := if ws2.count < 3 then none else some (listVar (diffsQ l))
     changeFromMean := cfm
     changePercent := cp
     rateOfChange := roc
     zScoreSq := zsq
     isAnomaly := anom })

lemma count_zero_variance (ws : WindowState) (h : ws.count = 0) :
    ws.variance = 0 := by
  rw [WindowState.variance, WindowState.mean, h]
  norm_num

/-- C3: for every window whose contents are insufficient or numerically
degenerate, derived fields are explicitly null and the (total) statistics
computation never throws: a single-reading window — empty before the
insert — produces null rate of change, null z-score and no anomaly flag;
every statistical and trend field is null when the resulting window has
fewer than 2 readings; acceleration and volatility are null below their
3-point minimum (trend below its 2-point minimum is part of the fewer-
than-2 conjunct); change percent is null when the pre-insert window mean
is 0; and the z-score is null (with no anomaly flag) when the pre-insert
standard deviation is 0. -/
theorem C3_degenerate_null_fields (cfg : Config) (ws : WindowState) (v : ℚ) (ts : Int) :
    (ws.entries = [] →
      (processValue cfg ws v ts).2.rateOfChange = none ∧
      (processValue cfg ws v ts).2.zScoreSq = none ∧
      (processValue cfg ws v ts).2.isAnomaly = false) ∧
    ((processValue cfg ws v ts).1.count < 2 →
      (processValue cfg ws v ts).2.mean = none ∧
      (processValue cfg ws v ts).2.median = none ∧
      (processValue cfg ws v ts).2.stdSq = none ∧
      (processValue cfg ws v ts).2.minVal = none ∧
      (processValue cfg ws v ts).2.maxVal = none ∧
      (processValue cfg ws v ts).2.rangeVal = none ∧
      (processValue cfg ws v ts).2.p25 = none ∧
      (processValue cfg ws v ts).2.p75 = none ∧
      (processValue cfg ws v ts).2.iqr = none ∧
      (processValue cfg ws v ts).2.trend = none ∧
      (processValue cfg ws v ts).2.acceleration = none ∧
      (processValue cfg ws v ts).2.volatilitySq = none) ∧
    ((processValue cfg ws v ts).1.count < 3 →
      (processValue cfg ws v ts).2.acceleration = none ∧
      (processValue cfg ws v ts).2.volatilitySq = none) ∧
    (ws.mean = 0 → (processValue cfg ws v ts).2.changePercent = none) ∧
    (ws.variance = 0 →
      (processValue cfg ws v ts).2.zScoreSq = none ∧
      (processValue cfg ws v ts).2.isAnomaly = false) := by
  refine ⟨?_, ?_, ?_, ?_, ?_⟩
  · intro h
    have hc : ws.count = 0 := by rw [WindowState.count, h]; rfl
    refine ⟨?_, ?_, ?_⟩ <;> simp [processValue, h, hc]
  · intro h
    simp only [processValue] at h ⊢
    have h3 : (insertEntry cfg.windowSize ws ⟨v, ts⟩).count < 3 :=
      Nat.lt_trans h (by norm_num)
    refine ⟨?_, ?_, ?_, ?_, ?_, ?_, ?_, ?_, ?_, ?_, ?_, ?_⟩ <;> simp [h, h3]
  · intro h
    simp only [processValue] at h ⊢
    exact ⟨by simp [h], by simp [h]⟩
  · intro h
    simp [processValue, h]
  · intro h
    refine ⟨by simp [processValue, h], ?_⟩
    simp [processValue, h]

/-- Witness for C3 at a concrete input: first reading of a fresh key. -/
theorem C3_degenerate_null_fields_witness :
    (processValue ⟨3, 1, 100, 3, 1⟩ emptyWindow 5 0).2.rateOfChange = none ∧
    (processValue ⟨3, 1, 100, 3, 1⟩ emptyWindow 5 0).2.zScoreSq = none ∧
    (processValue ⟨3, 1, 100, 3, 1⟩ emptyWindow 5 0).2.isAnomaly = false ∧
    (processValue ⟨3, 1, 100, 3, 1⟩ emptyWindow 5 0).2.mean = none := by
  have h := C3_degenerate_null_fields ⟨3, 1, 100, 3, 1⟩ emptyWindow 5 0
  exact ⟨(h.1 rfl).1, (h.1 rfl).2.1, (h.1 rfl).2.2, (h.2.1 (by decide)).1⟩

/-- C4: for every processed reading whose z-score is defined (positive
pre-insert window variance, i.e. nonzero standard deviation), the anomaly
flag is true exactly when the absolute z-score strictly exceeds the
anomaly threshold — the boundary comparison is exclusive, uniformly for
all inputs — and a reading lying exactly 10 standard deviations from the
window mean is always flagged under the default threshold 3.0. -/
theorem C4_anomaly_iff (cfg : Config) (ws : WindowState) (v : ℚ) (ts : Int)
    (ht : 0 ≤ cfg.anomalyThreshold) (hv : 0 < ws.variance) :
    (processValue cfg ws v ts).2.zScoreSq
      = some ((v - ws.mean) ^ 2 / ws.variance) ∧
    ((processValue cfg ws v ts).2.isAnomaly = true ↔
      (cfg.anomalyThreshold : ℝ) <
        |((v - ws.mean : ℚ) : ℝ)| / Real.sqrt ((ws.variance : ℚ) : ℝ)) ∧
    (cfg.anomalyThreshold = 3 → (v - ws.mean) ^ 2 = 100 * ws.variance →
      (processValue cfg ws v ts).2.isAnomaly = true) := by
  have hvne : ws.variance ≠ 0 := ne_of_gt hv
  have hcount : ws.count ≠ 0 := fun h0 => hvne (count_zero_variance ws h0)
  have hguard : ¬(ws.count = 0 ∨ ws.variance = 0) := by
    push_neg
    exact ⟨hcount, hvne⟩
  have hz : (processValue cfg ws v ts).2.zScoreSq
      = some ((v - ws.mean) ^ 2 / ws.variance) := by
    simp only [processValue]
    rw [if_neg hguard]
  have ha : (processValue cfg ws v ts).2.isAnomaly
      = decide (cfg.anomalyThreshold ^ 2 < (v - ws.mean) ^ 2 / ws.variance) := by
    simp only [processValue]
    rw [if_neg hguard]
  have hvR : (0 : ℝ) < ((ws.variance : ℚ) : ℝ) := by exact_mod_cast hv
  have hsR : 0 < Real.sqrt ((ws.variance : ℚ) : ℝ) := Real.sqrt_pos.mpr hvR
  have habs : (|((v - ws.mean : ℚ) : ℝ)| / Real.sqrt ((ws.variance : ℚ) : ℝ)) ^ 2
      = ((v - ws.mean : ℚ) : ℝ) ^ 2 / ((ws.variance : ℚ) : ℝ) := by
    rw [div_pow, sq_abs, Real.sq_sqrt (le_of_lt hvR)]
  refine ⟨hz, ?_, ?_⟩
  · rw [ha, decide_eq_true_eq]
    have hcast : (cfg.anomalyThreshold ^ 2 < (v - ws.mean) ^ 2 / ws.variance) ↔
        ((cfg.anomalyThreshold : ℝ) ^ 2
          < ((v - ws.mean : ℚ) : ℝ) ^ 2 / ((ws.variance : ℚ) : ℝ)) := by
      constructor <;> intro h <;> exact_mod_cast h
    rw [hcast, ← habs]
    have htR : (0 : ℝ) ≤ (cfg.anomalyThreshold : ℝ) := by exact_mod_cast ht
    have hq : (0 : ℝ) ≤ |((v - ws.mean : ℚ) : ℝ)| / Real.sqrt ((ws.variance : ℚ) : ℝ) := by
      positivity
    exact pow_lt_pow_iff_left₀ htR hq two_ne_zero
  · intro h3 h100
    rw [ha]
    have h100q : (v - ws.mean) ^ 2 / ws.variance = 100 := by
      rw [h100, mul_div_assoc, div_self hvne, mul_one]
    rw [h100q, h3]
    norm_num

/-- Witness for C4 at a concrete input: window of values 1 and 5 (mean 3,
variance 4), reading 23 lying 10 standard deviations from the mean. -/
theorem C4_anomaly_iff_witness :
    (0 : ℚ) ≤ (⟨60, 3, 100, 3, 1⟩ : Config).anomalyThreshold ∧
    0 < (⟨[⟨1, 0⟩, ⟨5, 1⟩], 6, 26⟩ : WindowState).variance ∧
    (processValue ⟨60, 3, 100, 3, 1⟩ ⟨[⟨1, 0⟩, ⟨5, 1⟩], 6, 26⟩ 23 2).2.isAnomaly
      = true := by
  have hv : 0 < (⟨[⟨1, 0⟩, ⟨5, 1⟩], 6, 26⟩ : WindowState).variance := by
    norm_num [WindowState.variance, WindowState.mean, WindowState.count]
  have h100 : ((23 : ℚ) - (⟨[⟨1, 0⟩, ⟨5, 1⟩], 6, 26⟩ : WindowState).mean) ^ 2
      = 100 * (⟨[⟨1, 0⟩, ⟨5, 1⟩], 6, 26⟩ : WindowState).variance := by
    norm_num [WindowState.variance, WindowState.mean, WindowState.count]
  exact ⟨by norm_num, hv,
    (C4_anomaly_iff ⟨60, 3, 100, 3, 1⟩ ⟨[⟨1, 0⟩, ⟨5, 1⟩], 6, 26⟩ 23 2
      (by norm_num) hv).2.2 rfl h100⟩

/-- Modelled from the spec: the Batch Write Buffer state (§3 WriteBuffer,
§4.4 nested writer statistics) — the ordered list of pending records, the
`total_written` / `total_errors` counters, and (for the verification) the
log of bulk-insert calls issued, each recorded with its batch size. -/
structure WriterState where
  buffer : List ProcessedRecord
  totalWritten : ℕ
  totalErrors : ℕ
  flushLog : List ℕ
  deriving DecidableEq, Repr

def emptyWriter : WriterState := ⟨[], 0, 0, []⟩

/-- Result of one flush call: records written, error flag, bulk-insert
attempts made, and the backoff delays slept between attempts. -/
structure FlushOutcome where
  written : ℕ
  error : Bool
  attempts : ℕ
  delays : List ℚ
  deriving DecidableEq, Repr

/-- Modelled from the spec: the storage interface `bulk_insert` (§6),
abstracted as the success/failure answer of the attempt with the given
index within one flush (the batch is accepted or rejected atomically). -/
def Storage : Type := ℕ → Bool

/-- A storage adapter that accepts every bulk insert. -/
def alwaysOk : Storage := fun _ => true

/-- Modelled from the spec: one bulk-insert attempt of the whole buffer.
The call is recorded in the bulk-call log with its batch size; on success
the buffer is cleared and `total_written` grows by the batch size; on a
storage error the buffer is left untouched. -/
def attemptBulk (storage : Storage) (i : ℕ) (w : WriterState) :
    WriterState × Bool :=
  if storage i then
    ({ w with
        buffer := [],
        totalWritten := w.totalWritten + w.buffer.length,
        flushLog := w.flushLog ++ [w.buffer.length] }, true)
  else
    ({ w with flushLog := w.flushLog ++ [w.buffer.length] }, false)

/-- Modelled from the spec: the retry loop of one flush (§4.3 failure
semantics): bulk insert is attempted up to the remaining-attempt budget;
after each failed attempt the loop backs off `backoff_base * 2 ^ attempt`
and retries; when the retry limit is exhausted the batch is dropped
(buffer cleared, to avoid unbounded growth) and counted once in
`total_errors`. -/
def flushAux (storage : Storage) (base : ℚ) :
    ℕ → ℕ → WriterState → WriterState × FlushOutcome
  | 0, i, w =>
      ({ w with buffer := [], totalErrors := w.totalErrors + 1 },
       ⟨0, true, i, []⟩)
  | fuel + 1, i, w =>
      let a := attemptBulk storage i w
      if a.2 then (a.1, ⟨w.buffer.length, false, i + 1, []⟩)
      else
        let r := flushAux storage base fuel (i + 1) a.1
        (r.1, ⟨r.2.written, r.2.error, r.2.attempts, base * 2 ^ i :: r.2.delays⟩)

/-- Modelled from the spec: `flush()` (§4.3): flushing an empty buffer is
a no-op returning zero written records and no error; otherwise the whole
buffer is bulk-inserted with the retry loop. -/
def flushWith (storage : Storage) (cfg : Config) (w : WriterState) :
    WriterState × FlushOutcome :=
  if w.buffer = [] then (w, ⟨0, false, 0, []⟩)
  else flushAux storage cfg.backoffBase cfg.retryLimit 0 w

/-- Modelled from the spec: `append(record)` (§4.3): the record joins the
buffer; if the buffer has reached `batch_size` a flush is triggered. -/
def appendRec (storage : Storage) (cfg : Config) (w : WriterState)
    (r : ProcessedRecord) : WriterState :=
  if cfg.batchSize ≤ (w.buffer ++ [r]).length then
    (flushWith storage cfg { w with buffer := w.buffer ++ [r] }).1
  else { w with buffer := w.buffer ++ [r] }

lemma attemptBulk_fail (storage : Storage) (i : ℕ) (w : WriterState)
    (h : storage i = false) :
    attemptBulk storage i w
      = ({ w with flushLog := w.flushLog ++ [w.buffer.length] }, false) := by
  simp [attemptBulk, h]

lemma attemptBulk_ok (storage : Storage) (i : ℕ) (w : WriterState)
    (h : storage i = true) :
    attemptBulk storage i w
      = ({ w with
            buffer := [],
            totalWritten := w.totalWritten + w.buffer.length,
            flushLog := w.flushLog ++ [w.buffer.length] }, true) := by
  simp [attemptBulk, h]

lemma flushAux_buffer_nil (storage : Storage) (base : ℚ) :
    ∀ (fuel i : ℕ) (w : WriterState),
      (flushAux storage base fuel i w).1.buffer = [] := by
  intro fuel
  induction fuel with
  | zero => intro i w; rfl
  | succ f ih =>
      intro i w
      rw [flushAux]
      by_cases hs : storage i = true
      · simp [attemptBulk_ok storage i w hs]
      · simp only [Bool.not_eq_true] at hs
        simp [attemptBulk_fail storage i w hs, ih]

lemma flushAux_attempts_le (storage : Storage) (base : ℚ) :
    ∀ (fuel i : ℕ) (w : WriterState),
      (flushAux storage base fuel i w).2.attempts ≤ i + fuel := by
  intro fuel
  induction fuel with
  | zero => intro i w; simp [flushAux]
  | succ f ih =>
      intro i w
      rw [flushAux]
      by_cases hs : storage i = true
      · simp [attemptBulk_ok storage i w hs]
      · simp only [Bool.not_eq_true] at hs
        simp only [attemptBulk_fail storage i w hs]
        simp only [Bool.false_eq_true, if_false]
        exact le_trans (ih (i + 1) _) (by omega)

lemma flushAux_allfail (storage : Storage) (base : ℚ) :
    ∀ (fuel i : ℕ) (w : WriterState),
      (∀ k, k < fuel → storage (i + k) = false) →
      flushAux storage base fuel i w
        = ({ w with
              buffer := [],
              totalErrors := w.totalErrors + 1,
              flushLog := w.flushLog ++ List.replicate fuel w.buffer.length },
           ⟨0, true, i + fuel,
            (List.range fuel).map (fun k => base * 2 ^ (i + k))⟩) := by
  intro fuel
  induction fuel with
  | zero =>
      intro i w h
      simp [flushAux]
  | succ f ih =>
      intro i w h
      have hs : storage i = false := by
        have h0 := h 0 (by omega)
        simpa using h0
      rw [flushAux]
      simp only [attemptBulk_fail storage i w hs]
      simp only [Bool.false_eq_true, if_false]
      rw [ih (i + 1) _ (fun k hk => by
        have hk1 := h (k + 1) (by omega)
        rw [show i + 1 + k = i + (k + 1) by omega]
        exact hk1)]
      simp only [Prod.mk.injEq]
      constructor
      · simp [List.replicate_succ, List.append_assoc]
      · simp only [FlushOutcome.mk.injEq]
        refine ⟨by trivial, by trivial, by omega, ?_⟩
        rw [List.range_succ_eq_map, List.map_cons, List.map_map]
        have harg : ∀ k : ℕ, base * 2 ^ (i + 1 + k) = base * 2 ^ (i + (k + 1)) :=
          fun k => by rw [show i + 1 + k = i + (k + 1) by omega]
        simp [Function.comp, harg]

lemma flushAux_succeed (storage : Storage) (base : ℚ) :
    ∀ (j fuel i : ℕ) (w : WriterState), j < fuel →
      (∀ k, k < j → storage (i + k) = false) → storage (i + j) = true →
      flushAux storage base fuel i w
        = ({ w with
              buffer := [],
              totalWritten := w.totalWritten + w.buffer.length,
              flushLog := w.flushLog ++ List.replicate (j + 1) w.buffer.length },
           ⟨w.buffer.length, false, i + j + 1,
            (List.range j).map (fun k => base * 2 ^ (i + k))⟩) := by
  intro j
  induction j with
  | zero =>
      intro fuel i w hfuel hfail hok
      rcases fuel with _ | f
      · omega
      rw [flushAux]
      have hs : storage i = true := by simpa using hok
      simp only [attemptBulk_ok storage i w hs]
      simp [List.replicate]
  | succ jj ih =>
      intro fuel i w hfuel hfail hok
      rcases fuel with _ | f
      · omega
      rw [flushAux]
      have hs : storage i = false := by simpa using hfail 0 (by omega)
      simp only [attemptBulk_fail storage i w hs]
      simp only [Bool.false_eq_true, if_false]
      rw [ih f (i + 1) _ (by omega)
        (fun k hk => by
          have hk1 := hfail (k + 1) (by omega)
          rw [show i + 1 + k = i + (k + 1) by omega]
          exact hk1)
        (by rw [show i + 1 + jj = i + (jj + 1) by omega]; exact hok)]
      simp only [Prod.mk.injEq]
      constructor
      · simp [List.replicate_succ, List.append_assoc]
      · simp only [FlushOutcome.mk.injEq]
        refine ⟨by trivial, by trivial, by omega, ?_⟩
        rw [List.range_succ_eq_map, List.map_cons, List.map_map]
        have harg : ∀ k : ℕ, base * 2 ^ (i + 1 + k) = base * 2 ^ (i + (k + 1)) :=
          fun k => by rw [show i + 1 + k = i + (k + 1) by omega]
        simp [Function.comp, harg]

/-- C2: for every flush attempt that fails with a storage error the
buffered records remain in the buffer (no record is dropped on a failed
attempt), and the flush is retried with bounded exponential backoff
(`backoff_base * 2 ^ attempt` between attempts, at most `retry_limit`
bulk-insert calls); a storage adapter that fails exactly `retry_limit - 1`
times and then succeeds results in the batch being written exactly once
with `total_errors` unchanged; one that fails at every attempt results in
the batch removed from the buffer and counted in `total_errors`. -/
theorem C2_flush_retry (cfg : Config) (storage : Storage) (w : WriterState)
    (hR : 0 < cfg.retryLimit) (hne : w.buffer ≠ []) :
    (∀ (i : ℕ) (w' : WriterState), storage i = false →
      (attemptBulk storage i w').1.buffer = w'.buffer) ∧
    (flushWith storage cfg w).2.attempts ≤ cfg.retryLimit ∧
    ((∀ k, k < cfg.retryLimit - 1 → storage k = false) →
      storage (cfg.retryLimit - 1) = true →
      (flushWith storage cfg w).1
        = { w with
            buffer := [],
            totalWritten := w.totalWritten + w.buffer.length,
            flushLog := w.flushLog
              ++ List.replicate cfg.retryLimit w.buffer.length } ∧
      (flushWith storage cfg w).2.written = w.buffer.length ∧
      (flushWith storage cfg w).2.error = false ∧
      (flushWith storage cfg w).2.delays
        = (List.range (cfg.retryLimit - 1)).map
            (fun k => cfg.backoffBase * 2 ^ k)) ∧
    ((∀ k, k < cfg.retryLimit → storage k = false) →
      (flushWith storage cfg w).1
        = { w with
            buffer := [],
            totalErrors := w.totalErrors + 1,
            flushLog := w.flushLog
              ++ List.replicate cfg.retryLimit w.buffer.length } ∧
      (flushWith storage cfg w).2.error = true ∧
      (flushWith storage cfg w).2.written = 0 ∧
      (flushWith storage cfg w).2.delays
        = (List.range cfg.retryLimit).map
            (fun k => cfg.backoffBase * 2 ^ k)) := by
  refine ⟨?_, ?_, ?_, ?_⟩
  · intro i w' hsi
    rw [attemptBulk_fail storage i w' hsi]
  · rw [flushWith, if_neg hne]
    exact le_trans (flushAux_attempts_le storage cfg.backoffBase cfg.retryLimit 0 w)
      (by omega)
  · intro hfail hok
    rw [flushWith, if_neg hne]
    rw [flushAux_succeed storage cfg.backoffBase (cfg.retryLimit - 1)
      cfg.retryLimit 0 w (by omega)
      (fun k hk => by simpa using hfail k hk) (by simpa using hok)]
    refine ⟨?_, rfl, rfl, ?_⟩
    · have : cfg.retryLimit - 1 + 1 = cfg.retryLimit := by omega
      rw [this]
    · simp
  · intro hfail
    rw [flushWith, if_neg hne]
    rw [flushAux_allfail storage cfg.backoffBase cfg.retryLimit 0 w
      (fun k hk => by simpa using hfail k hk)]
    refine ⟨rfl, rfl, rfl, by simp⟩

def sampleRec : ProcessedRecord :=
  ⟨0, 0, 1, none, none, none, none, none, none, none, none, none, none, none,
   none, some 0, none, none, none, false⟩

def failFirstTwo : Storage := fun i => decide (2 ≤ i)

def neverOk : Storage := fun _ => false

/-- Witness for C2 at a concrete input: a one-record buffer, retry limit 3,
a storage adapter failing the first two attempts and accepting the third,
and one failing always. -/
theorem C2_flush_retry_witness :
    ((flushWith failFirstTwo ⟨60, 3, 100, 3, 1⟩ ⟨[sampleRec], 7, 5, []⟩).1
        = ⟨[], 8, 5, [1, 1, 1]⟩ ∧
      (flushWith failFirstTwo ⟨60, 3, 100, 3, 1⟩ ⟨[sampleRec], 7, 5, []⟩).2.error
        = false) ∧
    ((flushWith neverOk ⟨60, 3, 100, 3, 1⟩ ⟨[sampleRec], 7, 5, []⟩).1
        = ⟨[], 7, 6, [1, 1, 1]⟩ ∧
      (flushWith neverOk ⟨60, 3, 100, 3, 1⟩ ⟨[sampleRec], 7, 5, []⟩).2.error
        = true) := by
  have h1 := C2_flush_retry ⟨60, 3, 100, 3, 1⟩ failFirstTwo ⟨[sampleRec], 7, 5, []⟩
    (by norm_num) (by simp)
  have h2 := C2_flush_retry ⟨60, 3, 100, 3, 1⟩ neverOk ⟨[sampleRec], 7, 5, []⟩
    (by norm_num) (by simp)
  have hs1 := h1.2.2.1 (by decide) (by decide)
  have hs2 := h2.2.2.2 (by decide)
  refine ⟨⟨?_, hs1.2.2.1⟩, ⟨?_, hs2.2.1⟩⟩
  · rw [hs1.1]
    rfl
  · rw [hs2.1]
    rfl

lemma appendRec_length (storage : Storage) (cfg : Config) (w : WriterState)
    (r : ProcessedRecord) (hB : 0 < cfg.batchSize) :
    (appendRec storage cfg w r).buffer.length < cfg.batchSize := by
  rw [appendRec]
  split
  · rw [flushWith, if_neg (by simp)]
    rw [flushAux_buffer_nil]
    simpa using hB
  · rename_i h
    simp only [List.length_append, List.length_cons, List.length_nil] at h ⊢
    omega

lemma appendAll_length (storage : Storage) (cfg : Config)
    (hB : 0 < cfg.batchSize) :
    ∀ (recs : List ProcessedRecord) (w : WriterState),
      w.buffer.length < cfg.batchSize →
      (recs.foldl (appendRec storage cfg) w).buffer.length < cfg.batchSize := by
  intro recs
  induction recs with
  | nil => intro w h; simpa using h
  | cons r rest ih =>
      intro w h
      rw [List.foldl_cons]
      exact ih _ (appendRec_length storage cfg w r hB)

/-- C6: the write buffer's length never exceeds `batch_size` without a
flush being triggered — after any append, and along any sequence of
appends from a below-capacity state, the buffer stays strictly below
`batch_size`; a flush performs a single bulk insert of all buffered
records and, on success, clears the buffer and increments `total_written`
by the batch size; and flushing an empty buffer is a no-op that returns
zero written records with no error, leaving the state unchanged. -/
theorem C6_buffer_bound_flush (cfg : Config) (storage : Storage)
    (w : WriterState) (hB : 0 < cfg.batchSize) :
    (∀ r, (appendRec storage cfg w r).buffer.length < cfg.batchSize) ∧
    (∀ (recs : List ProcessedRecord) (w' : WriterState),
      w'.buffer.length < cfg.batchSize →
      (recs.foldl (appendRec storage cfg) w').buffer.length < cfg.batchSize) ∧
    (storage 0 = true → 0 < cfg.retryLimit → w.buffer ≠ [] →
      flushWith storage cfg w
        = ({ w with
              buffer := [],
              totalWritten := w.totalWritten + w.buffer.length,
              flushLog := w.flushLog ++ [w.buffer.length] },
           ⟨w.buffer.length, false, 1, []⟩)) ∧
    (w.buffer = [] → flushWith storage cfg w = (w, ⟨0, false, 0, []⟩)) := by
  refine ⟨fun r => appendRec_length storage cfg w r hB,
    appendAll_length storage cfg hB, ?_, ?_⟩
  · intro hok hR hne
    rw [flushWith, if_neg hne]
    rw [flushAux_succeed storage cfg.backoffBase 0 cfg.retryLimit 0 w
      (by omega) (fun k hk => by omega) (by simpa using hok)]
    simp [List.replicate]
  · intro hempty
    rw [flushWith, if_pos hempty]

/-- Witness for C6 at a concrete input: batch size 2; an empty-buffer flush
is a no-op and a one-record buffer flush writes it at the first attempt. -/
theorem C6_buffer_bound_flush_witness :
    flushWith alwaysOk ⟨60, 3, 2, 3, 1⟩ emptyWriter
      = (emptyWriter, ⟨0, false, 0, []⟩) ∧
    flushWith alwaysOk ⟨60, 3, 2, 3, 1⟩ ⟨[sampleRec], 7, 5, []⟩
      = (⟨[], 8, 5, [1]⟩, ⟨1, false, 1, []⟩) ∧
    (appendRec alwaysOk ⟨60, 3, 2, 3, 1⟩ emptyWriter sampleRec).buffer.length < 2 := by
  have h1 := C6_buffer_bound_flush ⟨60, 3, 2, 3, 1⟩ alwaysOk emptyWriter
    (by norm_num)
  have h2 := C6_buffer_bound_flush ⟨60, 3, 2, 3, 1⟩ alwaysOk ⟨[sampleRec], 7, 5, []⟩
    (by norm_num)
  refine ⟨h1.2.2.2 rfl, ?_, h1.1 sampleRec⟩
  have hs := h2.2.2.1 rfl (by norm_num) (by simp)
  rw [hs]
  rfl

/-- Modelled from the spec: the orchestrator lifecycle states (§4.4). -/
inductive PStatus where
  | stopped : PStatus
  | running : PStatus
  | paused : PStatus
  deriving DecidableEq, Repr

/-- Modelled from the spec: the whole pipeline state supervised by the
Orchestrator (§4.4): lifecycle status, the per-key Window State Store,
the `total_processed` / `total_errors` counters, and the write buffer. -/
structure PipelineState where
  status : PStatus
  windows : String × String → WindowState
  totalProcessed : ℕ
  totalErrors : ℕ
  writer : WriterState

def initState : PipelineState :=
  ⟨PStatus.stopped, fun _ => emptyWindow, 0, 0, emptyWriter⟩

/-- Modelled from the spec: input validation (§4.1, §7): a reading is valid
when `timestamp` and `value` are present and the value is finite. -/
def Reading.valid (r : Reading) : Bool :=
  match r.value, r.timestamp with
  | RawVal.fin _, some _ => true
  | _, _ => false

/-- Modelled from the spec: processing one reading through the pipeline
(§4.1–§4.3): a malformed reading (missing timestamp or value, or a
non-finite value) raises a counted ValidationError — the reading is
skipped, no state but `total_errors` changes; a valid reading updates its
key's window, produces one record and hands it to the write buffer. -/
def processReading (storage : Storage) (cfg : Config) (st : PipelineState)
    (r : Reading) : PipelineState :=
  match r.value, r.timestamp with
  | RawVal.fin v, some ts =>
      { st with
          windows := fun k' =>
            if k' = (r.well_id, r.sensor_type) then
              (processValue cfg (st.windows (r.well_id, r.sensor_type)) v ts).1
            else st.windows k',
          totalProcessed := st.totalProcessed + 1,
          writer := appendRec storage cfg st.writer
            (processValue cfg (st.windows (r.well_id, r.sensor_type)) v ts).2 }
  | _, _ => { st with totalErrors := st.totalErrors + 1 }

/-- Consuming a list of readings in order. -/
def processAll (storage : Storage) (cfg : Config) (st : PipelineState)
    (rs : List Reading) : PipelineState :=
  rs.foldl (processReading storage cfg) st

/-- Modelled from the spec: `start()` (§4.4): an idempotent no-op when
already Running; otherwise transitions to Running and begins consuming
the pending readings of the source adapter. -/
def startPipeline (storage : Storage) (cfg : Config) (st : PipelineState)
    (pending : List Reading) : PipelineState :=
  if st.status = PStatus.running then st
  else processAll storage cfg { st with status := PStatus.running } pending

/-- Modelled from the spec: `stop()` (§4.4): valid from any state; drains
the write buffer with a final forced flush and transitions to Stopped. -/
def stopPipeline (storage : Storage) (cfg : Config) (st : PipelineState) :
    PipelineState :=
  { st with
      status := PStatus.stopped,
      writer := (flushWith storage cfg st.writer).1 }

/-- C9: every reading missing its timestamp or value, or carrying a
non-finite value, is rejected with a counted ValidationError: the window
state of every key is unchanged, `total_errors` grows by one, the writer
and `total_processed` are untouched, and the error is not fatal — the
pipeline goes on to process the remaining readings. -/
theorem C9_validation_rejects (storage : Storage) (cfg : Config)
    (st : PipelineState) (r : Reading) (rs : List Reading)
    (h : r.timestamp = none ∨ r.value = RawVal.missing ∨
      r.value = RawVal.nonFinite) :
    (processReading storage cfg st r).windows = st.windows ∧
    (processReading storage cfg st r).totalErrors = st.totalErrors + 1 ∧
    (processReading storage cfg st r).writer = st.writer ∧
    (processReading storage cfg st r).totalProcessed = st.totalProcessed ∧
    (processReading storage cfg st r).status = st.status ∧
    processAll storage cfg st (r :: rs)
      = processAll storage cfg (processReading storage cfg st r) rs := by
  obtain ⟨wid, sty, val, tso⟩ := r
  have herr : processReading storage cfg st ⟨wid, sty, val, tso⟩
      = { st with totalErrors := st.totalErrors + 1 } := by
    rcases val with _ | _ | q
    · rfl
    · rfl
    · rcases tso with _ | t
      · rfl
      · exfalso
        rcases h with h | h | h <;> simp at h
  refine ⟨by rw [herr], by rw [herr], by rw [herr], by rw [herr],
    by rw [herr], rfl⟩

/-- Witness for C9 at a concrete input: a reading with a missing value. -/
theorem C9_validation_rejects_witness :
    (processReading alwaysOk ⟨60, 3, 100, 3, 1⟩ initState
        ⟨"Well_01", "motor_temperature", RawVal.missing, some 0⟩).windows
      = initState.windows ∧
    (processReading alwaysOk ⟨60, 3, 100, 3, 1⟩ initState
        ⟨"Well_01", "motor_temperature", RawVal.missing, some 0⟩).totalErrors
      = initState.totalErrors + 1 ∧
    (processReading alwaysOk ⟨60, 3, 100, 3, 1⟩ initState
        ⟨"Well_01", "motor_temperature", RawVal.missing, some 0⟩).writer
      = initState.writer := by
  have h := C9_validation_rejects alwaysOk ⟨60, 3, 100, 3, 1⟩ initState
    ⟨"Well_01", "motor_temperature", RawVal.missing, some 0⟩ []
    (Or.inr (Or.inl rfl))
  exact ⟨h.1, h.2.1, h.2.2.1⟩

lemma appendRec_alwaysOk_full (cfg : Config) (w : WriterState)
    (rec : ProcessedRecord) (hR : 0 < cfg.retryLimit)
    (hfull : w.buffer.length + 1 = cfg.batchSize) :
    appendRec alwaysOk cfg w rec
      = { w with
          buffer := [],
          totalWritten := w.totalWritten + cfg.batchSize,
          flushLog := w.flushLog ++ [cfg.batchSize] } := by
  rw [appendRec, if_pos (by simp; omega)]
  rw [flushWith, if_neg (by simp)]
  rw [flushAux_succeed alwaysOk cfg.backoffBase 0 cfg.retryLimit 0 _
    (by omega) (fun k hk => by omega) rfl]
  simp [List.replicate, hfull]

lemma appendRec_not_full (storage : Storage) (cfg : Config) (w : WriterState)
    (rec : ProcessedRecord) (h : w.buffer.length + 1 < cfg.batchSize) :
    appendRec storage cfg w rec = { w with buffer := w.buffer ++ [rec] } := by
  rw [appendRec, if_neg (by simp; omega)]

lemma processReading_valid_parts (storage : Storage) (cfg : Config)
    (st : PipelineState) (r : Reading) (h : r.valid = true) :
    ∃ rec, (processReading storage cfg st r).writer
        = appendRec storage cfg st.writer rec
      ∧ (processReading storage cfg st r).status = st.status := by
  obtain ⟨wid, sty, val, tso⟩ := r
  rcases val with _ | _ | q
  · simp [Reading.valid] at h
  · simp [Reading.valid] at h
  · rcases tso with _ | t
    · simp [Reading.valid] at h
    · exact ⟨(processValue cfg (st.windows (wid, sty)) q t).2, rfl, rfl⟩

lemma processAll_writer_chunks (cfg : Config) (hB : 0 < cfg.batchSize)
    (hR : 0 < cfg.retryLimit) :
    ∀ (rs : List Reading) (st : PipelineState),
      (∀ r ∈ rs, r.valid = true) →
      st.writer.buffer.length < cfg.batchSize →
      ((processAll alwaysOk cfg st rs).writer.buffer.length
          = (st.writer.buffer.length + rs.length) % cfg.batchSize
        ∧ (processAll alwaysOk cfg st rs).writer.flushLog
          = st.writer.flushLog ++ List.replicate
              ((st.writer.buffer.length + rs.length) / cfg.batchSize)
              cfg.batchSize
        ∧ (processAll alwaysOk cfg st rs).writer.totalWritten
          = st.writer.totalWritten + cfg.batchSize
              * ((st.writer.buffer.length + rs.length) / cfg.batchSize)
        ∧ (processAll alwaysOk cfg st rs).writer.totalErrors
          = st.writer.totalErrors
        ∧ (processAll alwaysOk cfg st rs).status = st.status) := by
  intro rs
  induction rs with
  | nil =>
      intro st hv hlen
      refine ⟨?_, ?_, ?_, rfl, rfl⟩
      · simp [processAll, Nat.mod_eq_of_lt hlen]
      · simp [processAll, Nat.div_eq_of_lt hlen]
      · simp [processAll, Nat.div_eq_of_lt hlen]
  | cons r rest ih =>
      intro st hv hlen
      have hvr : r.valid = true := hv r (List.mem_cons_self r rest)
      have hvrest : ∀ x ∈ rest, x.valid = true :=
        fun x hx => hv x (List.mem_cons_of_mem r hx)
      obtain ⟨rec, hw, hstat⟩ := processReading_valid_parts alwaysOk cfg st r hvr
      have hPA : processAll alwaysOk cfg st (r :: rest)
          = processAll alwaysOk cfg (processReading alwaysOk cfg st r) rest := rfl
      rw [hPA]
      simp only [List.length_cons]
      by_cases hfull : st.writer.buffer.length + 1 = cfg.batchSize
      · have hwF : (processReading alwaysOk cfg st r).writer
            = { st.writer with
                buffer := [],
                totalWritten := st.writer.totalWritten + cfg.batchSize,
                flushLog := st.writer.flushLog ++ [cfg.batchSize] } := by
          rw [hw, appendRec_alwaysOk_full cfg st.writer rec hR hfull]
        obtain ⟨ih1, ih2, ih3, ih4, ih5⟩ :=
          ih (processReading alwaysOk cfg st r) hvrest (by rw [hwF]; simpa using hB)
        have hm1 : st.writer.buffer.length + (rest.length + 1)
            = rest.length + cfg.batchSize := by omega
        have hdiv : (st.writer.buffer.length + (rest.length + 1)) / cfg.batchSize
            = rest.length / cfg.batchSize + 1 := by
          rw [hm1, Nat.add_div_right _ hB]
        have hmod : (st.writer.buffer.length + (rest.length + 1)) % cfg.batchSize
            = rest.length % cfg.batchSize := by
          rw [hm1, Nat.add_mod_right]
        refine ⟨?_, ?_, ?_, ?_, ?_⟩
        · rw [ih1, hwF, hmod]
          simp
        · rw [ih2, hwF, hdiv]
          simp [List.replicate_succ, List.append_assoc]
        · rw [ih3, hwF, hdiv]
          simp only [List.length_nil, Nat.zero_add, Nat.mul_succ]
          omega
        · rw [ih4, hwF]
        · rw [ih5, hstat]
      · have hlt : st.writer.buffer.length + 1 < cfg.batchSize := by omega
        have hwF : (processReading alwaysOk cfg st r).writer
            = { st.writer with buffer := st.writer.buffer ++ [rec] } := by
          rw [hw, appendRec_not_full alwaysOk cfg st.writer rec hlt]
        obtain ⟨ih1, ih2, ih3, ih4, ih5⟩ :=
          ih (processReading alwaysOk cfg st r) hvrest
            (by rw [hwF]; simp only [List.length_append, List.length_cons,
              List.length_nil]; omega)
        have harith : st.writer.buffer.length + 1 + rest.length
            = st.writer.buffer.length + (rest.length + 1) := by omega
        refine ⟨?_, ?_, ?_, ?_, ?_⟩
        · rw [ih1, hwF]
          simp only [List.length_append, List.length_cons, List.length_nil,
            Nat.add_zero]
          rw [harith]
        · rw [ih2, hwF]
          simp only [List.length_append, List.length_cons, List.length_nil,
            Nat.add_zero]
          rw [harith]
        · rw [ih3, hwF]
          simp only [List.length_append, List.length_cons, List.length_nil,
            Nat.add_zero]
          rw [harith]
        · rw [ih4, hwF]
        · rw [ih5, hstat]

/-- C7: `start()` transitions the orchestrator from Stopped to Running and
is an idempotent no-op when already Running; `stop()` is valid from any
state, drains the write buffer with a final forced flush, and transitions
to Stopped; consequently `start()` followed by `stop()` with 150 pending
valid readings and `batch_size = 100` performs exactly two bulk-insert
flush calls — one of 100 records, then one of 50 — and ends with
`total_written = 150`. -/
theorem C7_lifecycle (cfg : Config) (rs : List Reading)
    (hB : cfg.batchSize = 100) (hR : 0 < cfg.retryLimit)
    (hval : ∀ r ∈ rs, r.valid = true) (hlen : rs.length = 150) :
    (startPipeline alwaysOk cfg initState rs).status = PStatus.running ∧
    (∀ st : PipelineState, st.status = PStatus.running →
      startPipeline alwaysOk cfg st rs = st) ∧
    (∀ st : PipelineState,
      (stopPipeline alwaysOk cfg st).status = PStatus.stopped) ∧
    (stopPipeline alwaysOk cfg
        (startPipeline alwaysOk cfg initState rs)).writer.buffer = [] ∧
    (stopPipeline alwaysOk cfg
        (startPipeline alwaysOk cfg initState rs)).writer.flushLog
      = [100, 50] ∧
    (stopPipeline alwaysOk cfg
        (startPipeline alwaysOk cfg initState rs)).writer.totalWritten
      = 150 := by
  have h0 : (0 : ℕ) < cfg.batchSize := by omega
  have hstart : startPipeline alwaysOk cfg initState rs
      = processAll alwaysOk cfg { initState with status := PStatus.running } rs := by
    rw [startPipeline, if_neg (by simp [initState])]
  have hst0w : ({ initState with status := PStatus.running } : PipelineState).writer
      = emptyWriter := rfl
  obtain ⟨c1, c2, c3, c4, c5⟩ := processAll_writer_chunks cfg h0 hR rs
    { initState with status := PStatus.running } hval
    (by rw [hst0w]; simpa [emptyWriter] using h0)
  rw [hst0w, hlen, hB] at c1 c2 c3
  simp only [emptyWriter, List.length_nil, Nat.zero_add] at c1 c2 c3
  have hmod : (150 : ℕ) % 100 = 50 := by norm_num
  have hdiv : (150 : ℕ) / 100 = 1 := by norm_num
  rw [hmod] at c1
  rw [hdiv] at c2 c3
  simp only [List.replicate, List.nil_append, Nat.mul_one] at c2 c3
  have hne : (processAll alwaysOk cfg
      { initState with status := PStatus.running } rs).writer.buffer ≠ [] := by
    intro hnil
    rw [hnil] at c1
    simp at c1
  have hfl : (flushWith alwaysOk cfg (processAll alwaysOk cfg
        { initState with status := PStatus.running } rs).writer).1
      = { (processAll alwaysOk cfg
            { initState with status := PStatus.running } rs).writer with
          buffer := [],
          totalWritten := (processAll alwaysOk cfg
            { initState with status := PStatus.running } rs).writer.totalWritten
            + (processAll alwaysOk cfg
              { initState with status := PStatus.running } rs).writer.buffer.length,
          flushLog := (processAll alwaysOk cfg
            { initState with status := PStatus.running } rs).writer.flushLog
            ++ List.replicate 1 (processAll alwaysOk cfg
              { initState with status := PStatus.running } rs).writer.buffer.length } := by
    rw [flushWith, if_neg hne]
    rw [flushAux_succeed alwaysOk cfg.backoffBase 0 cfg.retryLimit 0 _
      (by omega) (fun k hk => by omega) rfl]
  refine ⟨?_, ?_, ?_, ?_, ?_, ?_⟩
  · rw [hstart, c5]
  · intro st hrun
    rw [startPipeline, if_pos hrun]
  · intro st
    rfl
  · rw [stopPipeline] at *
    rw [hstart]
    rw [hfl]
  · rw [stopPipeline, hstart]
    rw [hfl]
    simp only [c1, c2, List.replicate]
    rfl
  · rw [stopPipeline, hstart]
    rw [hfl]
    rw [c1, c3]

/-- Witness for C7 at a concrete input: 150 identical valid readings,
batch size 100. -/
theorem C7_lifecycle_witness :
    (stopPipeline alwaysOk ⟨60, 3, 100, 3, 1⟩
        (startPipeline alwaysOk ⟨60, 3, 100, 3, 1⟩ initState
          (List.replicate 150
            ⟨"Well_01", "motor_temperature", RawVal.fin 75, some 0⟩))).writer.flushLog
      = [100, 50] ∧
    (stopPipeline alwaysOk ⟨60, 3, 100, 3, 1⟩
        (startPipeline alwaysOk ⟨60, 3, 100, 3, 1⟩ initState
          (List.replicate 150
            ⟨"Well_01", "motor_temperature", RawVal.fin 75, some 0⟩))).writer.totalWritten
      = 150 ∧
    (stopPipeline alwaysOk ⟨60, 3, 100, 3, 1⟩
        (startPipeline alwaysOk ⟨60, 3, 100, 3, 1⟩ initState
          (List.replicate 150
            ⟨"Well_01", "motor_temperature", RawVal.fin 75, some 0⟩))).writer.buffer
      = [] := by
  have h := C7_lifecycle ⟨60, 3, 100, 3, 1⟩
    (List.replicate 150 ⟨"Well_01", "motor_temperature", RawVal.fin 75, some 0⟩)
    rfl (by norm_num)
    (fun r hr => by rw [List.eq_of_mem_replicate hr]; rfl)
    (by simp)
  exact ⟨h.2.2.2.2.1, h.2.2.2.2.2, h.2.2.2.1⟩

/-- The configuration of the end-to-end scenario of §8: window size 3,
anomaly threshold 1.0. -/
def c5cfg : Config := ⟨3, 1, 100, 3, 1⟩

/-- First scenario step: reading 70.0 at time 0 into a fresh window. -/
def c5step1 : WindowState × ProcessedRecord := processValue c5cfg emptyWindow 70 0

/-- Second scenario step: reading 71.0 at time 1. -/
def c5step2 : WindowState × ProcessedRecord := processValue c5cfg c5step1.1 71 1

/-- Third scenario step: reading 130.0 at time 2. -/
def c5step3 : WindowState × ProcessedRecord := processValue c5cfg c5step2.1 130 2

/-- C5: processing the readings 70.0, 71.0, 130.0 in order for key
(Well_01, motor_temperature) with window size 3 and anomaly threshold 1.0
yields, for the third reading, a window mean of 271/3 ≈ 90.33, a z-score
exceeding 1.0 (its square is 14161 = 119²) with the anomaly flag set, and
a change percent of 11900/141 ≈ 84.4%, computed against the pre-insert
mean 70.5 of the first two values; the per-key window the pipeline holds
after the three readings is exactly the engine chain's window. -/
theorem C5_end_to_end :
    (processAll alwaysOk c5cfg initState
        [⟨"Well_01", "motor_temperature", RawVal.fin 70, some 0⟩,
         ⟨"Well_01", "motor_temperature", RawVal.fin 71, some 1⟩,
         ⟨"Well_01", "motor_temperature", RawVal.fin 130, some 2⟩]).windows
      ("Well_01", "motor_temperature") = c5step3.1 ∧
    c5step2.1.mean = 141 / 2 ∧
    c5step3.2.changeFromMean = some (119 / 2) ∧
    c5step3.2.changePercent = some (11900 / 141) ∧
    |(11900 : ℚ) / 141 - 422 / 5| < 1 / 100 ∧
    c5step3.2.mean = some (271 / 3) ∧
    |(271 : ℚ) / 3 - 9033 / 100| < 1 / 100 ∧
    c5step3.2.zScoreSq = some 14161 ∧
    (1 : ℝ) < Real.sqrt 14161 ∧
    c5step3.2.isAnomaly = true := by
  have hw1 : c5step1.1 = ⟨[⟨70, 0⟩], 70, 4900⟩ := by
    simp only [c5step1, processValue, insertEntry, emptyWindow, c5cfg]
    norm_num
  have hw2 : c5step2.1 = ⟨[⟨70, 0⟩, ⟨71, 1⟩], 141, 9941⟩ := by
    simp only [c5step2, processValue]
    rw [hw1]
    simp only [insertEntry, c5cfg]
    norm_num
  have hw3 : insertEntry c5cfg.windowSize c5step2.1 ⟨130, 2⟩
      = ⟨[⟨70, 0⟩, ⟨71, 1⟩, ⟨130, 2⟩], 271, 26841⟩ := by
    rw [hw2]
    simp only [insertEntry, c5cfg]
    norm_num
  have hc2 : c5step2.1.count = 2 := by rw [hw2]; rfl
  have hm2 : c5step2.1.mean = 141 / 2 := by
    rw [hw2]
    norm_num [WindowState.mean, WindowState.count]
  have hv2 : c5step2.1.variance = 1 / 4 := by
    rw [hw2]
    norm_num [WindowState.variance, WindowState.mean, WindowState.count]
  have hc3 : (insertEntry c5cfg.windowSize c5step2.1 ⟨130, 2⟩).count = 3 := by
    rw [hw3]
    rfl
  refine ⟨?_, hm2, ?_, ?_, ?_, ?_, ?_, ?_, ?_, ?_⟩
  · simp only [processAll, List.foldl_cons, List.foldl_nil, processReading,
      initState, c5step3, c5step2, c5step1, c5cfg, emptyWindow]
    simp
  · simp only [c5step3, processValue]
    rw [hc2, hm2]
    norm_num
  · simp only [c5step3, processValue]
    rw [hc2, hm2]
    norm_num
  · rw [abs_of_neg (by norm_num)]
    norm_num
  · simp only [c5step3, processValue]
    rw [hw3]
    norm_num [WindowState.mean, WindowState.count]
  · rw [abs_of_pos (by norm_num)]
    norm_num
  · simp only [c5step3, processValue]
    rw [hc2, hm2, hv2]
    norm_num
  · have h2 : Real.sqrt 1 < Real.sqrt 14161 :=
      Real.sqrt_lt_sqrt (by norm_num) (by norm_num)
    rwa [Real.sqrt_one] at h2
  · simp only [c5step3, processValue, c5cfg]
    rw [hc2, hm2, hv2]
    norm_num

/-- Translated from backend/database/init.sql (sensor_readings, lines
7–16): one stored row.  `reading_id UUID PRIMARY KEY DEFAULT
uuid_generate_v4()` is modelled as the fresh natural number the store
assigns on insert; the remaining columns keep their nullability. -/
structure SqlRow where
  reading_id : ℕ
  well_id : String
  sensor_type : String
  sensor_value : Option ℚ
  measurement_unit : Option String
  data_quality : Option Int
  ts : Option Int
  deriving DecidableEq, Repr

/-- An insert statement's values for sensor_readings (no reading_id: the
default generates it). -/
structure SqlInsert where
  well_id : String
  sensor_type : String
  sensor_value : Option ℚ
  measurement_unit : Option String
  data_quality : Option Int
  ts : Option Int
  deriving DecidableEq, Repr

/-- Translated from init.sql: the row constraints of sensor_readings —
`sensor_value DOUBLE PRECISION NOT NULL`, `timestamp TIMESTAMPTZ NOT
NULL`, and `data_quality INTEGER CHECK (data_quality >= 0 AND
data_quality <= 100)`; as in SQL, a NULL data_quality passes the CHECK. -/
def rowOk (r : SqlInsert) : Bool :=
  r.sensor_value.isSome && r.ts.isSome &&
    (match r.data_quality with
     | none => true
     | some q => decide (0 ≤ q) && decide (q ≤ 100))

/-- The sensor_readings table contents plus the generator of fresh
reading_id values. -/
structure SqlStore where
  rows : List SqlRow
  nextId : ℕ
  deriving DecidableEq, Repr

def emptySqlStore : SqlStore := ⟨[], 0⟩

def mkRow (id : ℕ) (r : SqlInsert) : SqlRow :=
  ⟨id, r.well_id, r.sensor_type, r.sensor_value, r.measurement_unit,
   r.data_quality, r.ts⟩

/-- Translated from init.sql: inserting one row into sensor_readings.  The
table's only key is the generated `reading_id`; init.sql declares NO
unique constraint or upsert key on (well_id, sensor_type, timestamp), so
an accepted row is always appended; a row violating a NOT NULL or CHECK
constraint is rejected and the store is unchanged. -/
def insertRow (s : SqlStore) (r : SqlInsert) : SqlStore :=
  if rowOk r then ⟨s.rows ++ [mkRow s.nextId r], s.nextId + 1⟩ else s

/-- A bulk insert as iterated row insertion. -/
def insertMany (s : SqlStore) (rs : List SqlInsert) : SqlStore :=
  rs.foldl insertRow s

/-- Number of stored rows carrying the given
(well_id, sensor_type, timestamp) key. -/
def countKey (s : SqlStore) (wid sty : String) (t : Option Int) : ℕ :=
  (s.rows.filter (fun row =>
    decide (row.well_id = wid ∧ row.sensor_type = sty ∧ row.ts = t))).length

lemma mkRow_constraints (id : ℕ) (r : SqlInsert) (h : rowOk r = true) :
    (mkRow id r).sensor_value ≠ none ∧ (mkRow id r).ts ≠ none ∧
      (∀ q, (mkRow id r).data_quality = some q → 0 ≤ q ∧ q ≤ 100) := by
  rw [rowOk] at h
  simp only [Bool.and_eq_true, decide_eq_true_eq] at h
  obtain ⟨⟨hval, hts⟩, hdq⟩ := h
  refine ⟨?_, ?_, ?_⟩
  · simp only [mkRow]
    exact Option.isSome_iff_ne_none.mp hval
  · simp only [mkRow]
    exact Option.isSome_iff_ne_none.mp hts
  · intro q hq
    simp only [mkRow] at hq
    rw [hq] at hdq
    simp only [Bool.and_eq_true, decide_eq_true_eq] at hdq
    exact hdq

lemma insertMany_inv :
    ∀ (rs : List SqlInsert) (s : SqlStore),
      (∀ row ∈ s.rows, row.sensor_value ≠ none ∧ row.ts ≠ none ∧
        (∀ q, row.data_quality = some q → 0 ≤ q ∧ q ≤ 100)) →
      ∀ row ∈ (insertMany s rs).rows,
        row.sensor_value ≠ none ∧ row.ts ≠ none ∧
          (∀ q, row.data_quality = some q → 0 ≤ q ∧ q ≤ 100) := by
  intro rs
  induction rs with
  | nil => intro s hs row hrow; exact hs row hrow
  | cons r rest ih =>
      intro s hs row hrow
      refine ih (insertRow s r) ?_ row hrow
      intro row' hrow'
      rw [insertRow] at hrow'
      by_cases hok : rowOk r = true
      · rw [if_pos hok] at hrow'
        simp only [List.mem_append, List.mem_singleton] at hrow'
        rcases hrow' with hmem | hnew
        · exact hs row' hmem
        · rw [hnew]
          exact mkRow_constraints s.nextId r hok
      · rw [if_neg hok] at hrow'
        exact hs row' hrow'

/-- C10: every record the sensor_readings store accepts has a non-null
sensor_value and a non-null timestamp, and its data_quality, when present,
lies between 0 and 100 inclusive; a record violating any of these
constraints is rejected with the store unchanged, so a buffered record
missing its value or timestamp can never be committed even if it bypassed
pipeline validation. -/
theorem C10_schema_constraints :
    (∀ (rs : List SqlInsert) (row : SqlRow),
      row ∈ (insertMany emptySqlStore rs).rows →
      row.sensor_value ≠ none ∧ row.ts ≠ none ∧
        (∀ q, row.data_quality = some q → 0 ≤ q ∧ q ≤ 100)) ∧
    (∀ (s : SqlStore) (r : SqlInsert), rowOk r = false → insertRow s r = s) := by
  constructor
  · intro rs row hrow
    exact insertMany_inv rs emptySqlStore (by intro row' h; simp [emptySqlStore] at h)
      row hrow
  · intro s r h
    rw [insertRow, if_neg (by rw [h]; simp)]

/-- Witness for C10 at a concrete input: a record with a missing
sensor_value (and one with an out-of-range quality) is rejected. -/
theorem C10_schema_constraints_witness :
    rowOk ⟨"Well_01", "motor_temperature", none, none, none, some 0⟩ = false ∧
    insertRow emptySqlStore
        ⟨"Well_01", "motor_temperature", none, none, none, some 0⟩
      = emptySqlStore ∧
    rowOk ⟨"Well_01", "motor_temperature", some 75, none, some 101, some 0⟩
      = false ∧
    insertRow emptySqlStore
        ⟨"Well_01", "motor_temperature", some 75, none, some 101, some 0⟩
      = emptySqlStore := by
  refine ⟨by decide, C10_schema_constraints.2 emptySqlStore _ (by decide),
    by decide, C10_schema_constraints.2 emptySqlStore _ (by decide)⟩

/-- A well-formed processed record as an insert statement, used to probe
duplicate handling of the sensor_readings schema. -/
def c8insert : SqlInsert :=
  ⟨"Well_01", "motor_temperature", some 75, some "C", some 95, some 0⟩

/-- C8 counterexample: init.sql gives sensor_readings only the generated
`reading_id` primary key and no unique constraint on
(well_id, sensor_type, timestamp), so writing the same record twice is NOT
absorbed: after a duplicate insert the store holds two rows for that key,
not exactly one. -/
theorem C8_duplicate_absorbed_counterexample :
    countKey (insertRow (insertRow emptySqlStore c8insert) c8insert)
        "Well_01" "motor_temperature" (some 0) = 2 ∧
    ¬ (countKey (insertRow (insertRow emptySqlStore c8insert) c8insert)
        "Well_01" "motor_temperature" (some 0) = 1) := by
  refine ⟨by decide, by decide⟩

lemma countKey_insert_self (s : SqlStore) (r : SqlInsert) (h : rowOk r = true) :
    countKey (insertRow s r) r.well_id r.sensor_type r.ts
      = countKey s r.well_id r.sensor_type r.ts + 1 := by
  rw [insertRow, if_pos h, countKey, countKey]
  simp [List.filter_append, mkRow]

/-- C8 amended: the sensor_readings schema of init.sql does not absorb
duplicate writes: it has no unique or upsert key on
(well_id, sensor_type, timestamp) — `reading_id` is the only key — so each
accepted duplicate bulk insert of the same record adds one more row for
that key: inserting a record twice grows the key's row count by exactly
two (and is therefore not idempotent per key). -/
theorem C8_duplicate_rows_amended (s : SqlStore) (r : SqlInsert)
    (h : rowOk r = true) :
    countKey (insertRow (insertRow s r) r) r.well_id r.sensor_type r.ts
      = countKey s r.well_id r.sensor_type r.ts + 2 := by
  rw [countKey_insert_self (insertRow s r) r h, countKey_insert_self s r h]

/-- Witness for the amended C8 at a concrete input. -/
theorem C8_duplicate_rows_amended_witness :
    countKey (insertRow (insertRow emptySqlStore c8insert) c8insert)
        c8insert.well_id c8insert.sensor_type c8insert.ts
      = countKey emptySqlStore c8insert.well_id c8insert.sensor_type
          c8insert.ts + 2 :=
  C8_duplicate_rows_amended emptySqlStore c8insert (by decide)
